import Mathlib

/-!
Shallow embedding of the bus seat-inventory subsystem of
`src/backend/server.py` (wanderlite): seat catalog, seat availability
ledger, seat locking, booking creation and cancellation.

Conventions of the embedding:
* SQLAlchemy rows become Lean structures; the string status columns become
  inductive types listing exactly the string values the handlers use.
* Datetimes and money amounts are rationals (seconds for time); the
  journey-date string key is modelled by the timestamp of its midnight.
* Each HTTP handler becomes a function `DB → ... → Except Err (DB × ...)`.
  A raised `HTTPException` aborts the request before `db.commit()`, and
  `get_db` closes the session without committing, so the pending ORM
  mutations are rolled back: the `.error` branch therefore returns no
  state, meaning the stored state is unchanged.
* `random.choices` draws and the transaction-id string are passed in as
  oracle arguments, since the handlers never consult stored state to
  produce them.
* Booking primary keys are `uuid4` strings in the source; they are
  modelled by a fresh counter `nextBookingId` (distinct per creation).
-/

namespace Wanderlite

/-- Values of the `bus_seat_availability.status` column used by the handlers. -/
inductive AvailStatus
  | available
  | locked
  | booked
  | blocked
deriving DecidableEq, Repr

/-- Values of `bus_bookings.booking_status` used by the handlers. -/
inductive BookingStatus
  | pending
  | confirmed
  | cancelled
  | completed
deriving DecidableEq, Repr

/-- Values of `bus_bookings.payment_status` used by the handlers. -/
inductive PaymentStatus
  | pending
  | paid
  | refunded
deriving DecidableEq, Repr

/-- Values of `bus_bookings.refund_status` used by the handlers. -/
inductive RefundStatus
  | processed
  | noRefund
deriving DecidableEq, Repr

/-- Row of `bus_seats` (the fields the subsystem reads). -/
structure BusSeat where
  id : Nat
  busId : Nat
  priceModifier : ℚ
deriving DecidableEq, Repr

/-- Row of `bus_schedules` (the fields the subsystem reads).
`departureTime` is the "HH:MM" column as seconds after midnight. -/
structure BusSchedule where
  id : Nat
  busId : Nat
  basePrice : ℚ
  departureTime : ℚ
deriving DecidableEq, Repr

/-- Row of `bus_seat_availability`. -/
structure AvailRecord where
  scheduleId : Nat
  seatId : Nat
  journeyDate : ℚ
  status : AvailStatus
  lockedBy : Option Nat
  lockedUntil : Option ℚ
  bookingId : Option Nat
deriving DecidableEq, Repr

/-- Row of `bus_bookings` (the fields the subsystem reads or writes). -/
structure BusBooking where
  id : Nat
  userId : Nat
  scheduleId : Nat
  journeyDate : ℚ
  pnr : String
  bookingStatus : BookingStatus
  totalAmount : ℚ
  discountAmount : ℚ
  finalAmount : ℚ
  paymentStatus : PaymentStatus
  transactionId : Option String
  cancelledAt : Option ℚ
  refundAmount : Option ℚ
  refundStatus : Option RefundStatus
deriving DecidableEq, Repr

/-- Row of `bus_passengers` (the fields the subsystem reads or writes). -/
structure BusPassenger where
  bookingId : Nat
  seatId : Nat
  name : String
  seatPrice : ℚ
deriving DecidableEq, Repr

/-- The stored state the subsystem touches. `buses` keeps only the ids of
the `buses` rows, which is all the modelled handlers consult. -/
structure DB where
  buses : List Nat
  seats : List BusSeat
  schedules : List BusSchedule
  avail : List AvailRecord
  bookings : List BusBooking
  passengers : List BusPassenger
  nextBookingId : Nat
deriving DecidableEq, Repr

/-- Lookup `db.query(BusSeatModel).filter(BusSeatModel.id == seat_id).first()`. -/
def findSeat (seats : List BusSeat) (seatId : Nat) : Option BusSeat :=
  seats.find? (fun s => s.id == seatId)

/-- Lookup `db.query(BusScheduleModel).filter(BusScheduleModel.id == sid).first()`. -/
def findSchedule (schedules : List BusSchedule) (sid : Nat) : Option BusSchedule :=
  schedules.find? (fun s => s.id == sid)

/-- Lookup of the availability row keyed by (schedule_id, seat_id, journey_date),
`first()` over the stored list. -/
def findAvail : List AvailRecord → Nat → Nat → ℚ → Option AvailRecord
  | [], _, _, _ => none
  | r :: rest, sid, seat, jd =>
      if r.scheduleId = sid ∧ r.seatId = seat ∧ r.journeyDate = jd then some r
      else findAvail rest sid seat jd

/-- In-place ORM mutation of the row `first()` returned: replace the first
record with the given key. -/
def replaceFirstAvail : List AvailRecord → Nat → Nat → ℚ → AvailRecord → List AvailRecord
  | [], _, _, _, _ => []
  | r :: rest, sid, seat, jd, newR =>
      if r.scheduleId = sid ∧ r.seatId = seat ∧ r.journeyDate = jd then newR :: rest
      else r :: replaceFirstAvail rest sid seat jd newR

/-- The comparison `availability.locked_until > now` guarded by the null check
on `locked_until`. Handlers that lock always set `locked_until`, so a `locked`
row carries it in every state they produce; a null one counts as no active
hold, matching `get_seat_layout`. -/
def lockActive (r : AvailRecord) (now : ℚ) : Bool :=
  match r.lockedUntil with
  | some t => decide (now < t)
  | none => false

/-- Status computation of `get_seat_layout` for one seat (server.py:5583-5602):
booked, else locked-and-unexpired, else blocked, default available. -/
def seatStatus (a : Option AvailRecord) (now : ℚ) : AvailStatus :=
  match a with
  | none => .available
  | some r =>
      match r.status with
      | .booked => .booked
      | .locked => if lockActive r now then .locked else .available
      | .blocked => .blocked
      | .available => .available

/-- One entry of the `seats` list returned by `get_seat_layout`. -/
structure SeatInfo where
  seatId : Nat
  priceModifier : ℚ
  status : AvailStatus
  price : ℚ
deriving DecidableEq, Repr

/-- Handler `get_seat_layout` (server.py:5556-5632): 404 when the schedule or
its bus is missing, otherwise one entry per seat of the bus with the computed
status and `price = base_price + price_modifier`. -/
def get_seat_layout (db : DB) (scheduleId : Nat) (journeyDate : ℚ) (now : ℚ) :
    Option (List SeatInfo) :=
  match findSchedule db.schedules scheduleId with
  | none => none
  | some schedule =>
      if schedule.busId ∈ db.buses then
        some ((db.seats.filter (fun s => s.busId == schedule.busId)).map (fun seat =>
          { seatId := seat.id
            priceModifier := seat.priceModifier
            status := seatStatus (findAvail db.avail scheduleId seat.id journeyDate) now
            price := schedule.basePrice + seat.priceModifier }))
      else none

/-- The fixed 5-minute lock TTL (`timedelta(minutes=5)`), in seconds. -/
def LOCK_TTL : ℚ := 300

/-- Errors `lock_seats` raises (both HTTP 400 in the source). -/
inductive LockError
  | seatAlreadyBooked
  | seatTempUnavailable
deriving DecidableEq, Repr

/-- Body of one iteration of the `lock_seats` loop (server.py:5646-5676):
booked rows and rows locked by another user with an unexpired hold raise;
every other row (including `blocked` ones, which the loop never tests) is
(re)written to `locked` by this user, and a missing row is inserted. -/
def lockOne (avail : List AvailRecord) (sid seat : Nat) (jd : ℚ) (uid : Nat)
    (lockUntil now : ℚ) : Except LockError (List AvailRecord) :=
  match findAvail avail sid seat jd with
  | some e =>
      if e.status = .booked then .error .seatAlreadyBooked
      else if e.status = .locked ∧ lockActive e now = true ∧ e.lockedBy ≠ some uid then
        .error .seatTempUnavailable
      else
        .ok (replaceFirstAvail avail sid seat jd
          { e with status := .locked, lockedBy := some uid, lockedUntil := some lockUntil })
  | none =>
      .ok (avail ++ [{ scheduleId := sid, seatId := seat, journeyDate := jd,
                       status := .locked, lockedBy := some uid,
                       lockedUntil := some lockUntil, bookingId := none }])

/-- The `for seat_id in request.seat_ids` loop of `lock_seats`. -/
def lockSeatsGo (sid : Nat) (jd : ℚ) (uid : Nat) (lockUntil now : ℚ) :
    List AvailRecord → List Nat → Except LockError (List AvailRecord)
  | avail, [] => .ok avail
  | avail, seat :: rest =>
      match lockOne avail sid seat jd uid lockUntil now with
      | .error e => .error e
      | .ok availNext => lockSeatsGo sid jd uid lockUntil now availNext rest

/-- Request body `BusSeatLockRequest`. -/
structure LockRequest where
  scheduleId : Nat
  journeyDate : ℚ
  seatIds : List Nat
deriving DecidableEq, Repr

/-- Handler `lock_seats` (server.py:5636-5679). An exception raised mid-loop
skips `db.commit()`, so the session rollback leaves the stored ledger
unchanged: the error branch carries no state. -/
def lock_seats (db : DB) (uid : Nat) (req : LockRequest) (now : ℚ) :
    Except LockError (DB × List Nat × ℚ) :=
  match lockSeatsGo req.scheduleId req.journeyDate uid (now + LOCK_TTL) now
      db.avail req.seatIds with
  | .error e => .error e
  | .ok availNext => .ok ({ db with avail := availNext }, req.seatIds, now + LOCK_TTL)

/-- One passenger of the `BusBookingCreate` request body. -/
structure PassengerReq where
  seatId : Nat
  name : String
deriving DecidableEq, Repr

/-- Request body `BusBookingCreate` (the fields the handler reads). -/
structure BookingRequest where
  scheduleId : Nat
  journeyDate : ℚ
  passengers : List PassengerReq
deriving DecidableEq, Repr

/-- Errors of `create_bus_booking`: 404 on a missing schedule, a crash (500)
when the schedule references no bus row, 400 on a seat id absent from
`bus_seats`, and the IntegrityError the UNIQUE constraint on
`bus_bookings.pnr` raises at commit when the drawn PNR is already stored. -/
inductive BookError
  | scheduleNotFound
  | busMissing
  | invalidSeat (seatId : Nat)
  | pnrTaken
deriving DecidableEq, Repr

/-- The `generate_pnr` helper (server.py:5441-5447): the literal "WL" followed
by 8 characters drawn by `random.choices`; the draw stream is the argument. -/
def generate_pnr (draws : List Char) : String :=
  "WL" ++ String.mk (draws.take 8)

/-- First loop of `create_bus_booking` (server.py:5699-5705): per passenger,
look the seat up by id alone (no bus check), 400 on a missing seat, and sum
`base_price + price_modifier`. -/
def computeTotal (seats : List BusSeat) (basePrice : ℚ) :
    List PassengerReq → Except BookError ℚ
  | [] => .ok 0
  | p :: rest =>
      match findSeat seats p.seatId with
      | none => .error (.invalidSeat p.seatId)
      | some seat =>
          match computeTotal seats basePrice rest with
          | .error e => .error e
          | .ok t => .ok (basePrice + seat.priceModifier + t)

/-- Availability write of the second loop (server.py:5750-5770): overwrite the
keyed row to `booked` clearing the lock fields, or insert a fresh `booked` row. -/
def bookSeat (avail : List AvailRecord) (sid seat : Nat) (jd : ℚ) (bid : Nat) :
    List AvailRecord :=
  match findAvail avail sid seat jd with
  | some e =>
      replaceFirstAvail avail sid seat jd
        { e with status := .booked, bookingId := some bid,
                 lockedBy := none, lockedUntil := none }
  | none =>
      avail ++ [{ scheduleId := sid, seatId := seat, journeyDate := jd,
                  status := .booked, lockedBy := none, lockedUntil := none,
                  bookingId := some bid }]

/-- Second loop of `create_bus_booking` (server.py:5733-5770): per passenger,
snapshot `base_price + price_modifier` into a passenger row and flip the
seat's availability to `booked`. The `none` seat branch adds no passenger;
it is unreachable after the first loop validated every seat id. -/
def addPassengers (seats : List BusSeat) (basePrice : ℚ) (sid : Nat) (jd : ℚ)
    (bid : Nat) : List PassengerReq → List AvailRecord →
    List BusPassenger × List AvailRecord
  | [], avail => ([], avail)
  | p :: rest, avail =>
      match findSeat seats p.seatId with
      | none => addPassengers seats basePrice sid jd bid rest avail
      | some seat =>
          let pass : BusPassenger :=
            { bookingId := bid, seatId := p.seatId, name := p.name,
              seatPrice := basePrice + seat.priceModifier }
          let availNext := bookSeat avail sid p.seatId jd bid
          let done := addPassengers seats basePrice sid jd bid rest availNext
          (pass :: done.1, done.2)

/-- Handler `create_bus_booking` (server.py:5683-5774). There is no
availability or lock re-check anywhere: after the seat ids resolve, the
booking is inserted as confirmed/paid and every seat row is overwritten to
`booked`. The `pnrTaken` branch is the UNIQUE(pnr) IntegrityError raised at
flush/commit, which rolls the whole request back. -/
def create_bus_booking (db : DB) (uid : Nat) (req : BookingRequest)
    (pnrDraws : List Char) (txn : String) : Except BookError (DB × Nat × String) :=
  match findSchedule db.schedules req.scheduleId with
  | none => .error .scheduleNotFound
  | some schedule =>
      if schedule.busId ∈ db.buses then
        match computeTotal db.seats schedule.basePrice req.passengers with
        | .error e => .error e
        | .ok total =>
            let pnr := generate_pnr pnrDraws
            if db.bookings.any (fun b => b.pnr == pnr) then .error .pnrTaken
            else
              let bid := db.nextBookingId
              let newBooking : BusBooking :=
                { id := bid, userId := uid, scheduleId := req.scheduleId,
                  journeyDate := req.journeyDate, pnr := pnr,
                  bookingStatus := .confirmed, totalAmount := total,
                  discountAmount := 0, finalAmount := total,
                  paymentStatus := .paid, transactionId := some txn,
                  cancelledAt := none, refundAmount := none, refundStatus := none }
              let added := addPassengers db.seats schedule.basePrice
                req.scheduleId req.journeyDate bid req.passengers db.avail
              .ok ({ db with
                      bookings := db.bookings ++ [newBooking],
                      passengers := db.passengers ++ added.1,
                      avail := added.2,
                      nextBookingId := bid + 1 }, bid, pnr)
      else .error .busMissing

/-- Errors of `cancel_bus_booking`; `scheduleMissing` stands for the unhandled
crash (500) when the booking references no schedule row. -/
inductive CancelError
  | notFound
  | alreadyCancelled
  | cannotCancelCompleted
  | scheduleMissing
deriving DecidableEq, Repr

/-- The refund ladder of `cancel_bus_booking` (server.py:5925-5932). -/
def refundPercentage (hoursBefore : ℚ) : ℚ :=
  if hoursBefore > 24 then 90
  else if hoursBefore > 12 then 50
  else if hoursBefore > 6 then 25
  else 0

/-- One `db.delete(availability)` of the release loop (server.py:5943-5950):
remove the first row with `booking_id == bid` and `seat_id == seat`. -/
def deleteAvailOnce (bid seat : Nat) : List AvailRecord → List AvailRecord
  | [] => []
  | r :: rest =>
      if r.bookingId = some bid ∧ r.seatId = seat then rest
      else r :: deleteAvailOnce bid seat rest

/-- The release loop of `cancel_bus_booking` over the booking's passengers. -/
def releaseSeats (bid : Nat) : List BusPassenger → List AvailRecord → List AvailRecord
  | [], avail => avail
  | p :: rest, avail => releaseSeats bid rest (deleteAvailOnce bid p.seatId avail)

/-- In-place ORM mutation of the booking row `first()` returned. -/
def replaceFirstBooking : List BusBooking → Nat → Nat → BusBooking → List BusBooking
  | [], _, _, _ => []
  | b :: rest, bid, uid, newB =>
      if b.id = bid ∧ b.userId = uid then newB :: rest
      else b :: replaceFirstBooking rest bid uid newB

/-- Handler `cancel_bus_booking` (server.py:5896-5959): ownership-scoped
lookup, state guards, refund ladder on
`hours_before = (departure - now) / 3600` with
`departure = journey_date + departure_time`, exact (unrounded) refund amount,
booking update, and per-passenger deletion of availability rows that carry
this booking's id. -/
def cancel_bus_booking (db : DB) (uid : Nat) (bookingId : Nat) (now : ℚ) :
    Except CancelError (DB × ℚ × ℚ × RefundStatus) :=
  match db.bookings.find? (fun b => b.id == bookingId && b.userId == uid) with
  | none => .error .notFound
  | some booking =>
      if booking.bookingStatus = .cancelled then .error .alreadyCancelled
      else if booking.bookingStatus = .completed then .error .cannotCancelCompleted
      else
        match findSchedule db.schedules booking.scheduleId with
        | none => .error .scheduleMissing
        | some schedule =>
            let departure := booking.journeyDate + schedule.departureTime
            let hoursBefore := (departure - now) / 3600
            let pct := refundPercentage hoursBefore
            let refundAmt := booking.finalAmount * pct / 100
            let rstatus : RefundStatus :=
              if refundAmt > 0 then .processed else .noRefund
            let cancelled : BusBooking :=
              { booking with bookingStatus := .cancelled, cancelledAt := some now,
                             refundAmount := some refundAmt,
                             refundStatus := some rstatus }
            let bookingsNext := replaceFirstBooking db.bookings bookingId uid cancelled
            let availNext := releaseSeats booking.id
              (db.passengers.filter (fun p => p.bookingId == booking.id)) db.avail
            .ok ({ db with bookings := bookingsNext, avail := availNext },
              pct, refundAmt, rstatus)

/-- Catalog mutation performed outside the booking subsystem (the seat
catalog is read-mostly reference data): set one seat's price modifier. -/
def updateSeatModifier (db : DB) (seatId : Nat) (m : ℚ) : DB :=
  { db with seats := db.seats.map (fun s =>
      if s.id == seatId then { s with priceModifier := m } else s) }

/-- The conflict condition of the `lock_seats` loop, phrased on the ledger
the request started from: the keyed row exists and is `booked`, or is
`locked` by a different user with an unexpired hold. (`blocked` rows are
absent here because the loop never tests for them.) -/
def lockConflict (avail : List AvailRecord) (sid seat : Nat) (jd : ℚ)
    (uid : Nat) (now : ℚ) : Prop :=
  match findAvail avail sid seat jd with
  | some e => e.status = .booked ∨
      (e.status = .locked ∧ lockActive e now = true ∧ e.lockedBy ≠ some uid)
  | none => False

/-- The keyed row exists, is `locked`, is held by `uid` and expires at `u`. -/
def lockedByAt (avail : List AvailRecord) (sid seat : Nat) (jd : ℚ)
    (uid : Nat) (u : ℚ) : Prop :=
  ∃ r, findAvail avail sid seat jd = some r ∧ r.status = .locked ∧
    r.lockedBy = some uid ∧ r.lockedUntil = some u

/-- Uniqueness of the (schedule_id, seat_id, journey_date) key over the
availability table, the invariant the spec declares for the ledger. -/
def avKeysUnique (l : List AvailRecord) : Prop :=
  l.Pairwise (fun a b =>
    ¬ (a.scheduleId = b.scheduleId ∧ a.seatId = b.seatId ∧ a.journeyDate = b.journeyDate))

/-- Rounding of an amount to the currency's minor unit (two decimal places),
written from the claim's words; used only to compare against the unrounded
amount the code records. -/
def roundToMinorUnit (x : ℚ) : ℚ := (round (x * 100) : ℤ) / 100

/-- Schedule fixture: schedule 1 on bus 1, base price 500, departure 10:00. -/
def schedA : BusSchedule := ⟨1, 1, 500, 36000⟩

/-- Base fixture: one bus with two seats and no stored ledger rows. -/
def dbBase : DB :=
  { buses := [1], seats := [⟨1, 1, 0⟩, ⟨2, 1, 0⟩], schedules := [schedA],
    avail := [], bookings := [], passengers := [], nextBookingId := 1 }

/-- Fixture variant whose seat 1 carries a +50 price modifier. -/
def dbMods : DB := { dbBase with seats := [⟨1, 1, 50⟩, ⟨2, 1, 0⟩] }

/-- State of `dbMods` after user 10 locks seat 1 at time 0. -/
def dbMods1 : DB :=
  { dbMods with avail := [⟨1, 1, 0, .locked, some 10, some 300, none⟩] }

/-- Draw stream fixture for `generate_pnr`. -/
def drawsA : List Char := ['A', 'A', 'A', 'A', 'A', 'A', 'A', 'A']

/-- Second draw stream fixture for `generate_pnr`. -/
def drawsB : List Char := ['B', 'B', 'B', 'B', 'B', 'B', 'B', 'B']

/-- Booking fixture: booking 1 of user 1 holding seat 1 of schedule 1. -/
def bkOther : BusBooking :=
  ⟨1, 1, 1, 0, "WLZZZZZZZZ", .confirmed, 500, 0, 500, .paid, some "T0",
    none, none, none⟩

/-- Fixture where seat 1 is already booked by user 1 through booking 1. -/
def dbC1pre : DB :=
  { dbBase with avail := [⟨1, 1, 0, .booked, none, none, some 1⟩],
                bookings := [bkOther], passengers := [⟨1, 1, "P0", 500⟩],
                nextBookingId := 2 }

/-- Fixture where seat 1 is operator-blocked. -/
def dbBlocked : DB := { dbBase with avail := [⟨1, 1, 0, .blocked, none, none, none⟩] }

/-- Booking fixture with final amount 100.25 for the refund computation. -/
def bkC5 : BusBooking :=
  ⟨1, 1, 1, 1000000, "WLAAAAAAAA", .confirmed, (401 : ℚ)/4, 0, (401 : ℚ)/4,
    .paid, some "T1", none, none, none⟩

/-- Fixture holding `bkC5` with its booked seat row. -/
def dbC5 : DB :=
  { dbBase with schedules := [⟨1, 1, (401 : ℚ)/4, 36000⟩],
                avail := [⟨1, 1, 1000000, .booked, none, none, some 1⟩],
                bookings := [bkC5], passengers := [⟨1, 1, "A", (401 : ℚ)/4⟩],
                nextBookingId := 2 }

/-- State of `dbC5` after user 1 cancels booking 1 at time 1000000
(10 hours before departure): refund 25% of 100.25, unrounded. -/
def dbC5res : DB :=
  { dbC5 with
      bookings := [{ bkC5 with bookingStatus := .cancelled,
                               cancelledAt := some 1000000,
                               refundAmount := some ((401 : ℚ)/16),
                               refundStatus := some .processed }],
      avail := [] }

/-- Booking fixture spanning seats 1 and 2 of schedule 1. -/
def bkW7 : BusBooking :=
  ⟨1, 1, 1, 0, "WLAAAAAAAA", .confirmed, 1000, 0, 1000, .paid, some "T1",
    none, none, none⟩

/-- Fixture holding the two-seat booking `bkW7` with both seats booked. -/
def dbW7 : DB :=
  { dbBase with
      avail := [⟨1, 1, 0, .booked, none, none, some 1⟩,
                ⟨1, 2, 0, .booked, none, none, some 1⟩],
      bookings := [bkW7], passengers := [⟨1, 1, "A", 500⟩, ⟨1, 2, "B", 500⟩],
      nextBookingId := 2 }

/-- State of `dbW7` after user 1 cancels booking 1 at departure time
(refund 0): both seat rows deleted. -/
def dbW7res : DB :=
  { dbW7 with
      bookings := [{ bkW7 with bookingStatus := .cancelled,
                               cancelledAt := some 36000,
                               refundAmount := some 0,
                               refundStatus := some .noRefund }],
      avail := [] }

/-- State of `dbMods` after user 1 books both seats with two passengers. -/
def dbW6res : DB :=
  { dbMods with
      avail := [⟨1, 1, 0, .booked, none, none, some 1⟩,
                ⟨1, 2, 0, .booked, none, none, some 1⟩],
      bookings := [⟨1, 1, 1, 0, "WLAAAAAAAA", .confirmed, 1050, 0, 1050,
        .paid, some "T1", none, none, none⟩],
      passengers := [⟨1, 1, "A", 550⟩, ⟨1, 2, "B", 500⟩],
      nextBookingId := 2 }

/-- State of `dbBase` after user 1 books seat 1 with draw stream `drawsA`. -/
def db8res : DB :=
  { dbBase with
      avail := [⟨1, 1, 0, .booked, none, none, some 1⟩],
      bookings := [⟨1, 1, 1, 0, "WLAAAAAAAA", .confirmed, 500, 0, 500,
        .paid, some "T1", none, none, none⟩],
      passengers := [⟨1, 1, "A", 500⟩],
      nextBookingId := 2 }

/-- State of `dbBase` after user 2 books seat 2 with draw stream `drawsB`. -/
def db10res : DB :=
  { dbBase with
      avail := [⟨1, 2, 0, .booked, none, none, some 1⟩],
      bookings := [⟨1, 2, 1, 0, "WLBBBBBBBB", .confirmed, 500, 0, 500,
        .paid, some "T3", none, none, none⟩],
      passengers := [⟨1, 2, "C", 500⟩],
      nextBookingId := 2 }

/-- Booking fixture created by the first booking of the race sequence. -/
def bkA2 : BusBooking :=
  ⟨1, 1, 1, 0, "WLAAAAAAAA", .confirmed, 500, 0, 500, .paid, some "T1",
    none, none, none⟩

/-- Booking fixture created by the second booking of the race sequence. -/
def bkB2 : BusBooking :=
  ⟨2, 2, 1, 0, "WLBBBBBBBB", .confirmed, 500, 0, 500, .paid, some "T2",
    none, none, none⟩

/-- State of `dbBase` after user 1 locks seat 1 at time 0. -/
def dbSeq1 : DB :=
  { dbBase with avail := [⟨1, 1, 0, .locked, some 1, some 300, none⟩] }

/-- State of `dbSeq1` after user 2 locks seat 1 at time 400 (the first lock
is expired, so the row is rewritten). -/
def dbSeq2 : DB :=
  { dbBase with avail := [⟨1, 1, 0, .locked, some 2, some 700, none⟩] }

/-- State of `dbSeq2` after user 1 books seat 1. -/
def dbSeq3 : DB :=
  { dbBase with avail := [⟨1, 1, 0, .booked, none, none, some 1⟩],
                bookings := [bkA2], passengers := [⟨1, 1, "A", 500⟩],
                nextBookingId := 2 }

/-- State of `dbSeq3` after user 2 also books seat 1: the availability row is
overwritten to booking 2 while booking 1 stays confirmed. -/
def dbSeq4 : DB :=
  { dbBase with avail := [⟨1, 1, 0, .booked, none, none, some 2⟩],
                bookings := [bkA2, bkB2],
                passengers := [⟨1, 1, "A", 500⟩, ⟨2, 1, "B", 500⟩],
                nextBookingId := 3 }

/-- State of `dbSeq4` after user 1 cancels booking 1 at time 0: the release
loop finds no row carrying booking 1, so the ledger is untouched. -/
def dbSeq5 : DB :=
  { dbSeq4 with
      bookings := [{ bkA2 with bookingStatus := .cancelled,
                               cancelledAt := some 0,
                               refundAmount := some 125,
                               refundStatus := some .processed }, bkB2] }

/-- State of `dbC1pre` after user 2 books the already-booked seat 1: the
row is overwritten to booking 2. -/
def dbC1res : DB :=
  { dbC1pre with
      avail := [⟨1, 1, 0, .booked, none, none, some 2⟩],
      bookings := [bkOther, ⟨2, 2, 1, 0, "WLBBBBBBBB", .confirmed, 500, 0,
        500, .paid, some "T2", none, none, none⟩],
      passengers := [⟨1, 1, "P0", 500⟩, ⟨2, 1, "Q", 500⟩],
      nextBookingId := 3 }

/-- State of `dbBase` after a booking request with an empty passenger list:
a confirmed booking of amount 0 with no passengers and no ledger rows. -/
def db9res : DB :=
  { dbBase with bookings := [⟨1, 1, 1, 0, "WLAAAAAAAA", .confirmed, 0, 0, 0,
      .paid, some "T1", none, none, none⟩], nextBookingId := 2 }

theorem findAvail_replaceFirstAvail_self (l : List AvailRecord) (sid seat : Nat)
    (jd : ℚ) (newR e : AvailRecord)
    (hkey : newR.scheduleId = sid ∧ newR.seatId = seat ∧ newR.journeyDate = jd)
    (h : findAvail l sid seat jd = some e) :
    findAvail (replaceFirstAvail l sid seat jd newR) sid seat jd = some newR := by
  induction l with
  | nil => simp [findAvail] at h
  | cons r rest ih =>
      by_cases hr : r.scheduleId = sid ∧ r.seatId = seat ∧ r.journeyDate = jd
      · simp [replaceFirstAvail, hr, findAvail, hkey]
      · simp [findAvail, hr] at h
        simp [replaceFirstAvail, hr, findAvail, ih h]

theorem findAvail_replaceFirstAvail_other (l : List AvailRecord) (sid seat : Nat)
    (jd : ℚ) (newR : AvailRecord) (seat2 : Nat) (hne : seat2 ≠ seat)
    (hkey : newR.scheduleId = sid ∧ newR.seatId = seat ∧ newR.journeyDate = jd) :
    findAvail (replaceFirstAvail l sid seat jd newR) sid seat2 jd =
      findAvail l sid seat2 jd := by
  induction l with
  | nil => simp [replaceFirstAvail, findAvail]
  | cons r rest ih =>
      by_cases hr : r.scheduleId = sid ∧ r.seatId = seat ∧ r.journeyDate = jd
      · have hx : ¬ (newR.scheduleId = sid ∧ newR.seatId = seat2 ∧
            newR.journeyDate = jd) := by
          intro hc
          exact hne (hc.2.1 ▸ hkey.2.1.symm ▸ rfl)
        have hrx : ¬ (r.scheduleId = sid ∧ r.seatId = seat2 ∧
            r.journeyDate = jd) := by
          intro hc
          exact hne (hc.2.1 ▸ hr.2.1.symm ▸ rfl)
        simp [replaceFirstAvail, hr, findAvail, hx, hrx]
        rw [if_neg fun hc => hne hc.symm]
      · simp [replaceFirstAvail, hr, findAvail]
        by_cases hr2 : r.scheduleId = sid ∧ r.seatId = seat2 ∧ r.journeyDate = jd
        · simp [hr2]
        · simp [hr2, ih]

theorem findAvail_append_none (l : List AvailRecord) (sid seat : Nat) (jd : ℚ)
    (x : AvailRecord) (h : findAvail l sid seat jd = none)
    (hx : x.scheduleId = sid ∧ x.seatId = seat ∧ x.journeyDate = jd) :
    findAvail (l ++ [x]) sid seat jd = some x := by
  induction l with
  | nil => simp [findAvail, hx]
  | cons r rest ih =>
      by_cases hr : r.scheduleId = sid ∧ r.seatId = seat ∧ r.journeyDate = jd
      · simp [findAvail, hr] at h
      · simp [findAvail, hr] at h ⊢
        exact ih h

theorem findAvail_append_other (l : List AvailRecord) (x : AvailRecord)
    (sid seat : Nat) (jd : ℚ)
    (hx : ¬ (x.scheduleId = sid ∧ x.seatId = seat ∧ x.journeyDate = jd)) :
    findAvail (l ++ [x]) sid seat jd = findAvail l sid seat jd := by
  induction l with
  | nil => simp [findAvail, hx]
  | cons r rest ih =>
      by_cases hr : r.scheduleId = sid ∧ r.seatId = seat ∧ r.journeyDate = jd
      · simp [findAvail, hr]
      · simp [findAvail, hr, ih]

theorem lockOne_error_iff (avail : List AvailRecord) (sid seat : Nat) (jd : ℚ)
    (uid : Nat) (u now : ℚ) :
    (∃ e, lockOne avail sid seat jd uid u now = .error e) ↔
      lockConflict avail sid seat jd uid now := by
  unfold lockOne lockConflict
  cases h : findAvail avail sid seat jd with
  | none => simp
  | some e =>
      by_cases hb : e.status = .booked
      · simp [hb]
      · by_cases hl : e.status = .locked ∧ lockActive e now = true ∧
            e.lockedBy ≠ some uid
        · simp [hb, hl]
        · simp [hb, hl]

theorem findAvail_some_key (l : List AvailRecord) (sid seat : Nat) (jd : ℚ)
    (e : AvailRecord) (h : findAvail l sid seat jd = some e) :
    e.scheduleId = sid ∧ e.seatId = seat ∧ e.journeyDate = jd := by
  induction l with
  | nil => simp [findAvail] at h
  | cons r rest ih =>
      by_cases hr : r.scheduleId = sid ∧ r.seatId = seat ∧ r.journeyDate = jd
      · simp [findAvail, hr] at h
        subst h; exact hr
      · simp [findAvail, hr] at h
        exact ih h

theorem lockOne_ok_shape (avail availNext : List AvailRecord) (sid seat : Nat)
    (jd : ℚ) (uid : Nat) (u now : ℚ)
    (h : lockOne avail sid seat jd uid u now = .ok availNext) :
    lockedByAt availNext sid seat jd uid u := by
  unfold lockOne at h
  cases hf : findAvail avail sid seat jd with
  | none =>
      simp only [hf, Except.ok.injEq] at h
      subst h
      exact ⟨_, findAvail_append_none avail sid seat jd _ hf ⟨rfl, rfl, rfl⟩,
        rfl, rfl, rfl⟩
  | some e =>
      simp only [hf] at h
      have hkeyE := findAvail_some_key avail sid seat jd e hf
      by_cases hb : e.status = .booked
      · simp [hb] at h
      · by_cases hl : e.status = .locked ∧ lockActive e now = true ∧
            e.lockedBy ≠ some uid
        · simp [hb, hl] at h
        · rw [if_neg hb, if_neg hl] at h
          simp only [Except.ok.injEq] at h
          subst h
          exact ⟨_, findAvail_replaceFirstAvail_self avail sid seat jd _ e
            ⟨hkeyE.1, hkeyE.2.1, hkeyE.2.2⟩ hf, rfl, rfl, rfl⟩

theorem lockOne_ok_preserves_other (avail availNext : List AvailRecord)
    (sid seat : Nat) (jd : ℚ) (uid : Nat) (u now : ℚ)
    (h : lockOne avail sid seat jd uid u now = .ok availNext)
    (seat2 : Nat) (hne : seat2 ≠ seat) :
    findAvail availNext sid seat2 jd = findAvail avail sid seat2 jd := by
  unfold lockOne at h
  cases hf : findAvail avail sid seat jd with
  | none =>
      simp only [hf, Except.ok.injEq] at h
      subst h
      exact findAvail_append_other avail _ sid seat2 jd
        (fun hc => hne hc.2.1.symm)
  | some e =>
      simp only [hf] at h
      have hkeyE := findAvail_some_key avail sid seat jd e hf
      by_cases hb : e.status = .booked
      · simp [hb] at h
      · by_cases hl : e.status = .locked ∧ lockActive e now = true ∧
            e.lockedBy ≠ some uid
        · simp [hb, hl] at h
        · rw [if_neg hb, if_neg hl] at h
          simp only [Except.ok.injEq] at h
          subst h
          exact findAvail_replaceFirstAvail_other avail sid seat jd _ seat2 hne
            ⟨hkeyE.1, hkeyE.2.1, hkeyE.2.2⟩

theorem lockOne_ok_not_conflict (avail availNext : List AvailRecord)
    (sid seat : Nat) (jd : ℚ) (uid : Nat) (u now : ℚ)
    (h : lockOne avail sid seat jd uid u now = .ok availNext) :
    ¬ lockConflict avail sid seat jd uid now := by
  intro hc
  obtain ⟨e, he⟩ := (lockOne_error_iff avail sid seat jd uid u now).mpr hc
  rw [h] at he
  exact Except.noConfusion he

theorem lockOne_ok_conflict_iff (avail availNext : List AvailRecord)
    (sid seat : Nat) (jd : ℚ) (uid : Nat) (u now : ℚ)
    (h : lockOne avail sid seat jd uid u now = .ok availNext) (seat2 : Nat) :
    lockConflict availNext sid seat2 jd uid now ↔
      lockConflict avail sid seat2 jd uid now := by
  by_cases hE : seat2 = seat
  · subst hE
    constructor
    · intro hc
      obtain ⟨r, hr, hrl, hrb, hru⟩ := lockOne_ok_shape avail availNext sid seat2
        jd uid u now h
      unfold lockConflict at hc
      rw [hr] at hc
      rcases hc with hc | hc
      · rw [hrl] at hc
        exact absurd hc (by simp)
      · exact absurd (hrb ▸ rfl) hc.2.2
    · intro hc
      exact absurd hc (lockOne_ok_not_conflict avail availNext sid seat2 jd uid
        u now h)
  · unfold lockConflict
    rw [lockOne_ok_preserves_other avail availNext sid seat jd uid u now h
      seat2 hE]

theorem lockOne_ok_preserves_shape (avail availNext : List AvailRecord)
    (sid seat : Nat) (jd : ℚ) (uid : Nat) (u now : ℚ)
    (h : lockOne avail sid seat jd uid u now = .ok availNext) (seat2 : Nat)
    (hs : lockedByAt avail sid seat2 jd uid u) :
    lockedByAt availNext sid seat2 jd uid u := by
  by_cases hE : seat2 = seat
  · subst hE
    exact lockOne_ok_shape avail availNext sid seat2 jd uid u now h
  · unfold lockedByAt at hs ⊢
    rw [lockOne_ok_preserves_other avail availNext sid seat jd uid u now h
      seat2 hE]
    exact hs

theorem lockSeatsGo_error_iff (sid : Nat) (jd : ℚ) (uid : Nat) (u now : ℚ)
    (seats : List Nat) (avail : List AvailRecord) :
    (∃ e, lockSeatsGo sid jd uid u now avail seats = .error e) ↔
      ∃ s ∈ seats, lockConflict avail sid s jd uid now := by
  induction seats generalizing avail with
  | nil => simp [lockSeatsGo]
  | cons s rest ih =>
      unfold lockSeatsGo
      cases hL : lockOne avail sid s jd uid u now with
      | error e =>
          have hc : lockConflict avail sid s jd uid now :=
            (lockOne_error_iff avail sid s jd uid u now).mp ⟨e, hL⟩
          simp only [true_iff, exists_eq]
          constructor
          · intro _
            exact ⟨s, List.mem_cons_self s rest, hc⟩
          · intro _
            exact ⟨e, rfl⟩
      | ok availNext =>
          have hnc := lockOne_ok_not_conflict avail availNext sid s jd uid u
            now hL
          constructor
          · intro hE
            obtain ⟨x, hx, hcx⟩ := (ih availNext).mp hE
            refine ⟨x, List.mem_cons_of_mem s hx, ?_⟩
            exact (lockOne_ok_conflict_iff avail availNext sid s jd uid u now
              hL x).mp hcx
          · rintro ⟨x, hx, hcx⟩
            rcases List.mem_cons.mp hx with rfl | hx2
            · exact absurd hcx hnc
            · refine (ih availNext).mpr ⟨x, hx2, ?_⟩
              exact (lockOne_ok_conflict_iff avail availNext sid s jd uid u now
                hL x).mpr hcx

theorem lockSeatsGo_ok_props (sid : Nat) (jd : ℚ) (uid : Nat) (u now : ℚ)
    (seats : List Nat) (avail availF : List AvailRecord)
    (h : lockSeatsGo sid jd uid u now avail seats = .ok availF) :
    (∀ s ∈ seats, lockedByAt availF sid s jd uid u) ∧
    (∀ s2, lockedByAt avail sid s2 jd uid u → lockedByAt availF sid s2 jd uid u) := by
  induction seats generalizing avail with
  | nil =>
      unfold lockSeatsGo at h
      simp only [Except.ok.injEq] at h
      subst h
      exact ⟨by simp, fun s2 hs => hs⟩
  | cons s rest ih =>
      unfold lockSeatsGo at h
      cases hL : lockOne avail sid s jd uid u now with
      | error e =>
          rw [hL] at h
          exact Except.noConfusion h
      | ok availNext =>
          rw [hL] at h
          obtain ⟨h1, h2⟩ := ih availNext h
          refine ⟨?_, ?_⟩
          · intro x hx
            rcases List.mem_cons.mp hx with rfl | hx2
            · exact h2 x (lockOne_ok_shape avail availNext sid x jd uid u now hL)
            · exact h1 x hx2
          · intro s2 hs2
            exact h2 s2 (lockOne_ok_preserves_shape avail availNext sid s jd
              uid u now hL s2 hs2)

/-- C3 counterexample: the claim says a request containing an
operator-`blocked` seat fails with SeatUnavailable and mutates nothing; in
the code the `lock_seats` loop never tests for `blocked`, so the request
succeeds and the blocked row is overwritten to `locked` by the requester. -/
theorem C3_blocked_seat_lockable :
    lock_seats dbBlocked 10 ⟨1, 0, [1]⟩ 0 =
      .ok ({ dbBlocked with
              avail := [⟨1, 1, 0, .locked, some 10, some 300, none⟩] },
        [1], 300) := by
  norm_num [lock_seats, lockSeatsGo, lockOne, findAvail, lockActive, LOCK_TTL,
    dbBlocked, dbBase, schedA, replaceFirstAvail]
  rfl

/-- C3 (amended): `lock_seats` fails the whole request iff some requested
seat's row is `booked`, or `locked` by a different user with a non-expired
hold — `blocked` rows do not fail the request and are overwritten to
`locked`, unlike the claim states. On failure the handler raises before
`db.commit()`, so the stored ledger is unchanged (the error branch of the
embedding carries no state). On success every requested seat's row is
`locked` with `lockedBy` the requester and `lockedUntil = now + LOCK_TTL`
(the fixed 5-minute TTL), and the reply carries the seat list and that
expiry. -/
theorem C3_lock_seats_amended (db : DB) (uid : Nat) (req : LockRequest)
    (now : ℚ) :
    ((∃ e, lock_seats db uid req now = .error e) ↔
      ∃ s ∈ req.seatIds,
        lockConflict db.avail req.scheduleId s req.journeyDate uid now) ∧
    (∀ dbNext ls exp, lock_seats db uid req now = .ok (dbNext, ls, exp) →
      ls = req.seatIds ∧ exp = now + LOCK_TTL ∧
      dbNext.bookings = db.bookings ∧ dbNext.passengers = db.passengers ∧
      ∀ s ∈ req.seatIds,
        lockedByAt dbNext.avail req.scheduleId s req.journeyDate uid
          (now + LOCK_TTL)) := by
  unfold lock_seats
  cases hGo : lockSeatsGo req.scheduleId req.journeyDate uid (now + LOCK_TTL)
      now db.avail req.seatIds with
  | error e =>
      refine ⟨?_, ?_⟩
      · constructor
        · intro _
          exact (lockSeatsGo_error_iff req.scheduleId req.journeyDate uid
            (now + LOCK_TTL) now req.seatIds db.avail).mp ⟨e, hGo⟩
        · intro _
          exact ⟨e, rfl⟩
      · intro dbNext ls exp hok
        exact Except.noConfusion hok
  | ok availF =>
      refine ⟨?_, ?_⟩
      · constructor
        · rintro ⟨e2, he2⟩
          exact Except.noConfusion he2
        · intro hc
          obtain ⟨e2, he2⟩ := (lockSeatsGo_error_iff req.scheduleId
            req.journeyDate uid (now + LOCK_TTL) now req.seatIds db.avail).mpr hc
          rw [hGo] at he2
          exact Except.noConfusion he2
      · intro dbNext ls exp hok
        simp only [Except.ok.injEq, Prod.mk.injEq] at hok
        obtain ⟨h1, h2, h3⟩ := hok
        subst h1
        subst h2
        subst h3
        refine ⟨rfl, rfl, rfl, rfl, ?_⟩
        exact (lockSeatsGo_ok_props req.scheduleId req.journeyDate uid
          (now + LOCK_TTL) now req.seatIds db.avail availF hGo).1

/-- C3 witness: locking seat 1 of the empty-ledger fixture succeeds and, by
the claim theorem, leaves the seat locked by user 10 until time 300. -/
theorem C3_lock_seats_amended_witness :
    lock_seats dbMods 10 ⟨1, 0, [1]⟩ 0 = .ok (dbMods1, [1], 300) ∧
    lockedByAt dbMods1.avail 1 1 0 10 (0 + LOCK_TTL) := by
  have hok : lock_seats dbMods 10 ⟨1, 0, [1]⟩ 0 = .ok (dbMods1, [1], 300) := by
    norm_num [lock_seats, lockSeatsGo, lockOne, findAvail, lockActive,
      LOCK_TTL, dbMods, dbMods1, dbBase, schedA]
  refine ⟨hok, ?_⟩
  exact ((C3_lock_seats_amended dbMods 10 ⟨1, 0, [1]⟩ 0).2 dbMods1 [1] 300
    hok).2.2.2.2 1 (by decide)

/-- C4: the seat-map read computes each seat's status by the five-case rule
of the claim (no row → available; booked → booked; blocked → blocked;
locked with now < lockedUntil → locked; locked with lockedUntil ≤ now →
available), and a seat locked by `lock_seats` at time T is reported
available by a read at any time ≥ T + LOCK_TTL with no cleanup job run. -/
theorem C4_seat_map_status :
    (∀ db sid jd now layout info, get_seat_layout db sid jd now = some layout →
      info ∈ layout →
      info.status = seatStatus (findAvail db.avail sid info.seatId jd) now) ∧
    (∀ now, seatStatus none now = AvailStatus.available) ∧
    (∀ r now, r.status = .booked → seatStatus (some r) now = .booked) ∧
    (∀ r now, r.status = .blocked → seatStatus (some r) now = .blocked) ∧
    (∀ r u now, r.status = .locked → r.lockedUntil = some u → now < u →
      seatStatus (some r) now = .locked) ∧
    (∀ r u now, r.status = .locked → r.lockedUntil = some u → u ≤ now →
      seatStatus (some r) now = .available) ∧
    (∀ db uid req T dbNext ls exp,
      lock_seats db uid req T = .ok (dbNext, ls, exp) →
      ∀ s ∈ req.seatIds, ∀ now2, T + LOCK_TTL ≤ now2 →
        seatStatus (findAvail dbNext.avail req.scheduleId s req.journeyDate)
          now2 = .available) := by
  refine ⟨?_, ?_, ?_, ?_, ?_, ?_, ?_⟩
  · intro db sid jd now layout info h hm
    unfold get_seat_layout at h
    cases hs : findSchedule db.schedules sid with
    | none =>
        simp only [hs] at h
        exact Option.noConfusion h
    | some schedule =>
        simp only [hs] at h
        by_cases hbus : schedule.busId ∈ db.buses
        · rw [if_pos hbus] at h
          simp only [Option.some.injEq] at h
          subst h
          obtain ⟨seat, _, hseat⟩ := List.mem_map.mp hm
          subst hseat
          rfl
        · rw [if_neg hbus] at h
          exact Option.noConfusion h
  · intro now
    rfl
  · intro r now hr
    simp [seatStatus, hr]
  · intro r now hr
    simp [seatStatus, hr]
  · intro r u now hr hu hlt
    simp [seatStatus, hr, lockActive, hu, hlt]
  · intro r u now hr hu hle
    have hnot : ¬ now < u := not_lt.mpr hle
    simp [seatStatus, hr, lockActive, hu, hnot]
  · intro db uid req T dbNext ls exp h s hs now2 hle
    unfold lock_seats at h
    cases hGo : lockSeatsGo req.scheduleId req.journeyDate uid (T + LOCK_TTL)
        T db.avail req.seatIds with
    | error e =>
        rw [hGo] at h
        exact Except.noConfusion h
    | ok availF =>
        rw [hGo] at h
        simp only [Except.ok.injEq, Prod.mk.injEq] at h
        obtain ⟨h1, _, _⟩ := h
        subst h1
        obtain ⟨r, hr, hst, hby, hu⟩ := (lockSeatsGo_ok_props req.scheduleId
          req.journeyDate uid (T + LOCK_TTL) T req.seatIds db.avail availF
          hGo).1 s hs
        have hnot : ¬ now2 < T + LOCK_TTL := not_lt.mpr hle
        rw [hr]
        simp [seatStatus, hst, lockActive, hu, hnot]

/-- C4 witness: seat 1, locked at time 0 for the 300-second TTL, is
reported available by the status computation at read time 400. -/
theorem C4_seat_map_status_witness :
    seatStatus (findAvail dbMods1.avail 1 1 0) 400 = .available := by
  have hok : lock_seats dbMods 10 ⟨1, 0, [1]⟩ 0 = .ok (dbMods1, [1], 300) := by
    norm_num [lock_seats, lockSeatsGo, lockOne, findAvail, lockActive,
      LOCK_TTL, dbMods, dbMods1, dbBase, schedA]
  exact C4_seat_map_status.2.2.2.2.2.2 dbMods 10 ⟨1, 0, [1]⟩ 0 dbMods1 [1] 300
    hok 1 (by decide) 400 (by norm_num [LOCK_TTL])

/-- C1: with seat 1 already `booked` through booking 1 of user 1, a
createBooking for the same seat by user 2 does not fail with a SeatConflict:
`create_bus_booking` performs no commit-time re-validation, the request
succeeds, and the seat's availability row is overwritten from booking 1 to
the new booking 2 — contradicting the claim, which demands failure with no
mutation of the seat's record. -/
theorem C1_createBooking_overwrites_booked_seat :
    findAvail dbC1pre.avail 1 1 0 =
      some ⟨1, 1, 0, .booked, none, none, some 1⟩ ∧
    create_bus_booking dbC1pre 2 ⟨1, 0, [⟨1, "Q"⟩]⟩ drawsB "T2" =
      .ok (dbC1res, 2, "WLBBBBBBBB") ∧
    findAvail dbC1res.avail 1 1 0 =
      some ⟨1, 1, 0, .booked, none, none, some 2⟩ := by
  refine ⟨by norm_num [findAvail, dbC1pre, dbBase], ?_,
    by norm_num [findAvail, dbC1res, dbC1pre, dbBase]⟩
  norm_num [create_bus_booking, dbC1pre, dbC1res, dbBase, bkOther, schedA,
    findSchedule, findSeat, computeTotal, generate_pnr, drawsB, addPassengers,
    bookSeat, findAvail, replaceFirstAvail]
  rfl

/-- C2: two complete lock-then-book sequences for the same single seat both
succeed. User 1 locks seat 1 at time 0; the lock expires; user 2 locks the
seat at time 400; both users then book it — `create_bus_booking` checks no
availability, so both bookings are stored confirmed, each with a passenger
on seat 1, contradicting the claim that exactly one succeeds and at most
one non-cancelled booking holds the seat. -/
theorem C2_two_lock_then_book_sequences_both_succeed :
    lock_seats dbBase 1 ⟨1, 0, [1]⟩ 0 = .ok (dbSeq1, [1], 300) ∧
    lock_seats dbSeq1 2 ⟨1, 0, [1]⟩ 400 = .ok (dbSeq2, [1], 700) ∧
    create_bus_booking dbSeq2 1 ⟨1, 0, [⟨1, "A"⟩]⟩ drawsA "T1" =
      .ok (dbSeq3, 1, "WLAAAAAAAA") ∧
    create_bus_booking dbSeq3 2 ⟨1, 0, [⟨1, "B"⟩]⟩ drawsB "T2" =
      .ok (dbSeq4, 2, "WLBBBBBBBB") ∧
    dbSeq4.bookings.map (fun b => b.bookingStatus) = [.confirmed, .confirmed] ∧
    dbSeq4.passengers.map (fun p => (p.bookingId, p.seatId)) = [(1, 1), (2, 1)] := by
  refine ⟨?_, ?_, ?_, ?_, by decide, by decide⟩
  · norm_num [lock_seats, lockSeatsGo, lockOne, findAvail, lockActive,
      LOCK_TTL, dbBase, schedA, dbSeq1, replaceFirstAvail]
  · norm_num [lock_seats, lockSeatsGo, lockOne, findAvail, lockActive,
      LOCK_TTL, dbBase, schedA, dbSeq1, dbSeq2, replaceFirstAvail]
    rfl
  · norm_num [create_bus_booking, dbSeq2, dbSeq3, dbBase, bkA2, schedA,
      findSchedule, findSeat, computeTotal, generate_pnr, drawsA,
      addPassengers, bookSeat, findAvail, replaceFirstAvail]
    rfl
  · norm_num [create_bus_booking, dbSeq3, dbSeq4, dbBase, bkA2, bkB2, schedA,
      findSchedule, findSeat, computeTotal, generate_pnr, drawsA, drawsB,
      addPassengers, bookSeat, findAvail, replaceFirstAvail]
    rfl

/-- C7 counterexample: after user 2's booking overwrote seat 1's
availability row (possible because createBooking never re-validates),
cancelling user 1's booking succeeds but releases nothing — the release
loop only deletes rows carrying the cancelled booking's id — so the seat
is still reported `booked` afterwards, not `available` as the claim states
for every passenger seat of a cancelled booking. -/
theorem C7_cancel_leaves_overwritten_seat_booked :
    create_bus_booking dbSeq3 2 ⟨1, 0, [⟨1, "B"⟩]⟩ drawsB "T2" =
      .ok (dbSeq4, 2, "WLBBBBBBBB") ∧
    (⟨1, 1, "A", (500 : ℚ)⟩ : BusPassenger) ∈ dbSeq4.passengers ∧
    cancel_bus_booking dbSeq4 1 1 0 = .ok (dbSeq5, 25, 125, .processed) ∧
    seatStatus (findAvail dbSeq5.avail 1 1 0) 0 = .booked := by
  refine ⟨?_, by norm_num [dbSeq4, dbBase], ?_,
    by norm_num [seatStatus, findAvail, dbSeq5, dbSeq4, dbBase]⟩
  · norm_num [create_bus_booking, dbSeq3, dbSeq4, dbBase, bkA2, bkB2, schedA,
      findSchedule, findSeat, computeTotal, generate_pnr, drawsA, drawsB,
      addPassengers, bookSeat, findAvail, replaceFirstAvail]
    rfl
  · norm_num [cancel_bus_booking, dbSeq4, dbSeq5, dbBase, bkA2, bkB2, schedA,
      findSchedule, refundPercentage, releaseSeats, deleteAvailOnce,
      replaceFirstBooking]
    rfl

/-- C8 counterexample: a createBooking whose random draw collides with a
stored booking's PNR does not retry with a fresh code; the whole request
fails (the UNIQUE constraint on pnr rejects the insert), contradicting the
claim's uniqueness-check-with-retry behavior. -/
theorem C8_pnr_collision_fails_request :
    create_bus_booking dbBase 1 ⟨1, 0, [⟨1, "A"⟩]⟩ drawsA "T1" =
      .ok (db8res, 1, "WLAAAAAAAA") ∧
    create_bus_booking db8res 2 ⟨1, 0, [⟨2, "B"⟩]⟩ drawsA "T2" =
      .error .pnrTaken := by
  constructor
  · norm_num [create_bus_booking, dbBase, db8res, schedA, findSchedule,
      findSeat, computeTotal, generate_pnr, drawsA, addPassengers, bookSeat,
      findAvail, replaceFirstAvail]
    rfl
  · norm_num [create_bus_booking, db8res, dbBase, schedA, findSchedule,
      findSeat, computeTotal, generate_pnr, drawsA, addPassengers, bookSeat,
      findAvail, replaceFirstAvail]
    exact fun hcontra => absurd rfl hcontra

/-- C9 counterexample: a booking request with an empty passenger list is not
rejected with InvalidRequest; `create_bus_booking` accepts it and stores a
confirmed booking of amount 0 with no passengers. -/
theorem C9_empty_passengers_accepted :
    create_bus_booking dbBase 1 ⟨1, 0, []⟩ drawsA "T1" =
      .ok (db9res, 1, "WLAAAAAAAA") ∧
    db9res.bookings.map (fun b => b.totalAmount) = [0] := by
  constructor
  · norm_num [create_bus_booking, dbBase, db9res, schedA, findSchedule,
      computeTotal, generate_pnr, drawsA, addPassengers]
    rfl
  · norm_num [db9res, dbBase]

/-- C5 counterexample: cancelling the 100.25-rupee booking 10 hours before
departure records refundAmount 401/16 = 25.0625, the exact unrounded value
of finalAmount × 25 / 100; the claim's minor-unit rounding of that product
(25.06) differs from what the code records. -/
theorem C5_refund_not_rounded :
    cancel_bus_booking dbC5 1 1 1000000 =
      .ok (dbC5res, 25, (401 : ℚ)/16, .processed) ∧
    (401 : ℚ)/16 = (401 : ℚ)/4 * 25 / 100 ∧
    roundToMinorUnit ((401 : ℚ)/4 * 25 / 100) ≠ (401 : ℚ)/4 * 25 / 100 := by
  refine ⟨?_, by norm_num, ?_⟩
  · norm_num [cancel_bus_booking, dbC5, dbC5res, dbBase, schedA, bkC5,
      findSchedule, refundPercentage, releaseSeats, deleteAvailOnce,
      replaceFirstBooking]
    rfl
  · norm_num [roundToMinorUnit, round_eq]

/-- C5 (amended): on every successful cancellation the refund percentage is
computed from hoursBefore = (journeyDate + departureTime − now) / 3600 by
the ladder 90 if > 24; 50 if 12 < h ≤ 24; 25 if 6 < h ≤ 12; 0 if h ≤ 6
(upper bound of each bracket inclusive), and the recorded refundAmount is
exactly finalAmount × refundPercentage / 100, with no rounding to the
currency's minor unit. -/
theorem C5_refund_ladder_amended (db : DB) (uid bid : Nat) (now : ℚ)
    (dbNext : DB) (pct amt : ℚ) (rs : RefundStatus) (bk : BusBooking)
    (schedule : BusSchedule)
    (hb : db.bookings.find? (fun b => b.id == bid && b.userId == uid) = some bk)
    (hs : findSchedule db.schedules bk.scheduleId = some schedule)
    (h : cancel_bus_booking db uid bid now = .ok (dbNext, pct, amt, rs)) :
    ((bk.journeyDate + schedule.departureTime - now) / 3600 > 24 → pct = 90) ∧
    (12 < (bk.journeyDate + schedule.departureTime - now) / 3600 →
      (bk.journeyDate + schedule.departureTime - now) / 3600 ≤ 24 → pct = 50) ∧
    (6 < (bk.journeyDate + schedule.departureTime - now) / 3600 →
      (bk.journeyDate + schedule.departureTime - now) / 3600 ≤ 12 → pct = 25) ∧
    ((bk.journeyDate + schedule.departureTime - now) / 3600 ≤ 6 → pct = 0) ∧
    amt = bk.finalAmount * pct / 100 := by
  unfold cancel_bus_booking at h
  simp only [hb] at h
  by_cases hc : bk.bookingStatus = BookingStatus.cancelled
  · rw [if_pos hc] at h
    exact Except.noConfusion h
  rw [if_neg hc] at h
  by_cases hp : bk.bookingStatus = BookingStatus.completed
  · rw [if_pos hp] at h
    exact Except.noConfusion h
  rw [if_neg hp] at h
  simp only [hs, Except.ok.injEq, Prod.mk.injEq] at h
  obtain ⟨-, hpct, hamt, -⟩ := h
  subst hpct
  subst hamt
  set hrs := (bk.journeyDate + schedule.departureTime - now) / 3600 with hdef
  refine ⟨?_, ?_, ?_, ?_, rfl⟩
  · intro h1
    simp [refundPercentage, h1]
  · intro h1 h2
    have hn : ¬ hrs > 24 := not_lt.mpr h2
    simp [refundPercentage, hn, h1]
  · intro h1 h2
    have hn24 : ¬ hrs > 24 := not_lt.mpr (by linarith)
    have hn12 : ¬ hrs > 12 := not_lt.mpr h2
    simp [refundPercentage, hn24, hn12, h1]
  · intro h1
    have hn24 : ¬ hrs > 24 := not_lt.mpr (by linarith)
    have hn12 : ¬ hrs > 12 := not_lt.mpr (by linarith)
    have hn6 : ¬ hrs > 6 := not_lt.mpr h1
    simp [refundPercentage, hn24, hn12, hn6]

/-- C5 witness: the amended ladder theorem applied to the concrete
cancellation 10 hours before departure yields percentage 25 and the exact
amount finalAmount × 25 / 100. -/
theorem C5_refund_ladder_amended_witness :
    (401 : ℚ)/16 = bkC5.finalAmount * 25 / 100 ∧ (25 : ℚ) = 25 := by
  have hok : cancel_bus_booking dbC5 1 1 1000000 =
      .ok (dbC5res, 25, (401 : ℚ)/16, .processed) := by
    norm_num [cancel_bus_booking, dbC5, dbC5res, dbBase, schedA, bkC5,
      findSchedule, refundPercentage, releaseSeats, deleteAvailOnce,
      replaceFirstBooking]
    rfl
  have h := C5_refund_ladder_amended dbC5 1 1 1000000 dbC5res 25 ((401 : ℚ)/16)
    .processed bkC5 ⟨1, 1, (401 : ℚ)/4, 36000⟩ rfl rfl hok
  refine ⟨h.2.2.2.2, ?_⟩
  exact h.2.2.1 (by norm_num [bkC5]) (by norm_num [bkC5])

theorem addPassengers_spec (seats : List BusSeat) (basePrice : ℚ) (sid : Nat)
    (jd : ℚ) (bid : Nat) (ps : List PassengerReq) (avail : List AvailRecord)
    (t : ℚ) (h : computeTotal seats basePrice ps = .ok t) :
    (∀ p ∈ (addPassengers seats basePrice sid jd bid ps avail).1,
      p.bookingId = bid ∧ ∃ seat, findSeat seats p.seatId = some seat ∧
        p.seatPrice = basePrice + seat.priceModifier) ∧
    ((addPassengers seats basePrice sid jd bid ps avail).1.map
      (fun p => p.seatPrice)).sum = t := by
  induction ps generalizing avail t with
  | nil =>
      unfold computeTotal at h
      simp only [Except.ok.injEq] at h
      subst h
      constructor
      · intro p hp
        simp [addPassengers] at hp
      · simp [addPassengers]
  | cons p rest ih =>
      unfold computeTotal at h
      cases hf : findSeat seats p.seatId with
      | none =>
          simp only [hf] at h
          exact Except.noConfusion h
      | some seat =>
          simp only [hf] at h
          cases ht : computeTotal seats basePrice rest with
          | error e =>
              simp only [ht] at h
              exact Except.noConfusion h
          | ok t2 =>
              simp only [ht, Except.ok.injEq] at h
              subst h
              unfold addPassengers
              simp only [hf]
              obtain ⟨ih1, ih2⟩ := ih (bookSeat avail sid p.seatId jd bid) t2 ht
              constructor
              · intro q hq
                rcases List.mem_cons.mp hq with rfl | hq2
                · exact ⟨rfl, seat, hf, rfl⟩
                · exact ih1 q hq2
              · simp only [List.map_cons, List.sum_cons, ih2]

/-- C6: on every successful createBooking, the new booking row and new
passenger rows are appended to the store; every new passenger's snapshotted
seatPrice equals the schedule base price plus that seat's price modifier at
booking time; totalAmount is the sum of those per-seat prices; finalAmount
equals totalAmount minus discountAmount; and changing any seat's price
modifier afterwards leaves every stored passenger row (hence its
snapshotted seatPrice) unchanged. -/
theorem C6_pricing_snapshot (db : DB) (uid : Nat) (req : BookingRequest)
    (draws : List Char) (txn : String) (dbNext : DB) (bid : Nat) (pnr : String)
    (h : create_bus_booking db uid req draws txn = .ok (dbNext, bid, pnr)) :
    ∃ schedule, findSchedule db.schedules req.scheduleId = some schedule ∧
    ∃ bk newPs, dbNext.bookings = db.bookings ++ [bk] ∧
      dbNext.passengers = db.passengers ++ newPs ∧ bk.id = bid ∧
      (∀ p ∈ newPs, ∃ seat, findSeat db.seats p.seatId = some seat ∧
        p.seatPrice = schedule.basePrice + seat.priceModifier) ∧
      bk.totalAmount = (newPs.map (fun p => p.seatPrice)).sum ∧
      bk.finalAmount = bk.totalAmount - bk.discountAmount ∧
      ∀ sid2 m, (updateSeatModifier dbNext sid2 m).passengers =
        dbNext.passengers := by
  unfold create_bus_booking at h
  cases hs : findSchedule db.schedules req.scheduleId with
  | none =>
      simp only [hs] at h
      exact Except.noConfusion h
  | some schedule =>
      simp only [hs] at h
      by_cases hbus : schedule.busId ∈ db.buses
      · rw [if_pos hbus] at h
        cases ht : computeTotal db.seats schedule.basePrice req.passengers with
        | error e =>
            simp only [ht] at h
            exact Except.noConfusion h
        | ok total =>
            simp only [ht] at h
            by_cases hpn : db.bookings.any
                (fun b => b.pnr == generate_pnr draws) = true
            · rw [if_pos hpn] at h
              exact Except.noConfusion h
            · rw [if_neg hpn] at h
              simp only [Except.ok.injEq, Prod.mk.injEq] at h
              obtain ⟨h1, h2, h3⟩ := h
              subst h1
              subst h2
              obtain ⟨hA, hB⟩ := addPassengers_spec db.seats schedule.basePrice
                req.scheduleId req.journeyDate db.nextBookingId req.passengers
                db.avail total ht
              refine ⟨schedule, rfl, _, _, rfl, rfl, rfl, ?_, ?_, ?_,
                fun sid2 m => rfl⟩
              · intro p hp
                exact (hA p hp).2
              · exact hB.symm
              · simp
      · rw [if_neg hbus] at h
        exact Except.noConfusion h

/-- C6 witness: booking both seats of the modifier fixture stores passenger
prices 550 and 500 and a booking whose totalAmount is their sum. -/
theorem C6_pricing_snapshot_witness :
    ∃ schedule bk newPs,
      findSchedule dbMods.schedules 1 = some schedule ∧
      dbW6res.bookings = dbMods.bookings ++ [bk] ∧
      dbW6res.passengers = dbMods.passengers ++ newPs ∧
      bk.totalAmount = (newPs.map (fun p => p.seatPrice)).sum := by
  have hok : create_bus_booking dbMods 1 ⟨1, 0, [⟨1, "A"⟩, ⟨2, "B"⟩]⟩ drawsA
      "T1" = .ok (dbW6res, 1, "WLAAAAAAAA") := by
    norm_num [create_bus_booking, dbMods, dbW6res, dbBase, schedA,
      findSchedule, findSeat, computeTotal, generate_pnr, drawsA,
      addPassengers, bookSeat, findAvail, replaceFirstAvail]
    rfl
  obtain ⟨schedule, hs, bk, newPs, h1, h2, hbid, hprice, htot, hfin, hupd⟩ :=
    C6_pricing_snapshot dbMods 1 ⟨1, 0, [⟨1, "A"⟩, ⟨2, "B"⟩]⟩ drawsA "T1"
      dbW6res 1 "WLAAAAAAAA" hok
  exact ⟨schedule, bk, newPs, hs, h1, h2, htot⟩

/-- C10: every booking stored by a successful createBooking is appended with
booking_status `confirmed`, payment_status `paid`, discount_amount 0 and a
non-null transaction id, whatever the request contains; `pending` states are
never produced by this handler. -/
theorem C10_booking_fields (db : DB) (uid : Nat) (req : BookingRequest)
    (draws : List Char) (txn : String) (dbNext : DB) (bid : Nat) (pnr : String)
    (h : create_bus_booking db uid req draws txn = .ok (dbNext, bid, pnr)) :
    ∃ bk, dbNext.bookings = db.bookings ++ [bk] ∧ bk.id = bid ∧
      bk.bookingStatus = .confirmed ∧ bk.paymentStatus = .paid ∧
      bk.discountAmount = 0 ∧ bk.transactionId = some txn ∧
      bk.transactionId ≠ none := by
  unfold create_bus_booking at h
  cases hs : findSchedule db.schedules req.scheduleId with
  | none =>
      simp only [hs] at h
      exact Except.noConfusion h
  | some schedule =>
      simp only [hs] at h
      by_cases hbus : schedule.busId ∈ db.buses
      · rw [if_pos hbus] at h
        cases ht : computeTotal db.seats schedule.basePrice req.passengers with
        | error e =>
            simp only [ht] at h
            exact Except.noConfusion h
        | ok total =>
            simp only [ht] at h
            by_cases hpn : db.bookings.any
                (fun b => b.pnr == generate_pnr draws) = true
            · rw [if_pos hpn] at h
              exact Except.noConfusion h
            · rw [if_neg hpn] at h
              simp only [Except.ok.injEq, Prod.mk.injEq] at h
              obtain ⟨h1, h2, h3⟩ := h
              subst h1
              subst h2
              exact ⟨_, rfl, rfl, rfl, rfl, rfl, rfl, by simp⟩
      · rw [if_neg hbus] at h
        exact Except.noConfusion h

/-- C10 witness: the concrete booking of seat 2 by user 2 is stored
confirmed, paid, with zero discount and transaction id "T3". -/
theorem C10_booking_fields_witness :
    ∃ bk, db10res.bookings = dbBase.bookings ++ [bk] ∧
      bk.bookingStatus = .confirmed ∧ bk.paymentStatus = .paid ∧
      bk.discountAmount = 0 ∧ bk.transactionId = some "T3" := by
  have hok : create_bus_booking dbBase 2 ⟨1, 0, [⟨2, "C"⟩]⟩ drawsB "T3" =
      .ok (db10res, 1, "WLBBBBBBBB") := by
    norm_num [create_bus_booking, dbBase, db10res, schedA, findSchedule,
      findSeat, computeTotal, generate_pnr, drawsB, addPassengers, bookSeat,
      findAvail, replaceFirstAvail]
    rfl
  obtain ⟨bk, h1, hbid, hst, hpay, hd, htx, htn⟩ :=
    C10_booking_fields dbBase 2 ⟨1, 0, [⟨2, "C"⟩]⟩ drawsB "T3" db10res 1
      "WLBBBBBBBB" hok
  exact ⟨bk, h1, hst, hpay, hd, htx⟩

/-- C8 (amended): createBooking draws one random PNR and performs no retry;
the UNIQUE(pnr) constraint makes a colliding request fail outright, so on
every successful createBooking the stored PNR differs from all previously
stored ones, and pairwise distinctness of stored PNRs is preserved — 10,000
stored bookings therefore carry 10,000 distinct PNRs, but only because
colliding requests fail, not through a check-and-retry. -/
theorem C8_pnr_amended (db : DB) (uid : Nat) (req : BookingRequest)
    (draws : List Char) (txn : String) (dbNext : DB) (bid : Nat) (pnr : String)
    (h : create_bus_booking db uid req draws txn = .ok (dbNext, bid, pnr)) :
    pnr = generate_pnr draws ∧
    (∀ b ∈ db.bookings, b.pnr ≠ pnr) ∧
    (∃ bk, dbNext.bookings = db.bookings ++ [bk] ∧ bk.pnr = pnr) ∧
    ((db.bookings.map (fun b => b.pnr)).Nodup →
      (dbNext.bookings.map (fun b => b.pnr)).Nodup) := by
  unfold create_bus_booking at h
  cases hs : findSchedule db.schedules req.scheduleId with
  | none =>
      simp only [hs] at h
      exact Except.noConfusion h
  | some schedule =>
      simp only [hs] at h
      by_cases hbus : schedule.busId ∈ db.buses
      · rw [if_pos hbus] at h
        cases ht : computeTotal db.seats schedule.basePrice req.passengers with
        | error e =>
            simp only [ht] at h
            exact Except.noConfusion h
        | ok total =>
            simp only [ht] at h
            by_cases hpn : db.bookings.any
                (fun b => b.pnr == generate_pnr draws) = true
            · rw [if_pos hpn] at h
              exact Except.noConfusion h
            · rw [if_neg hpn] at h
              simp only [Except.ok.injEq, Prod.mk.injEq] at h
              obtain ⟨h1, h2, h3⟩ := h
              subst h1
              subst h3
              have hfresh : ∀ b ∈ db.bookings, b.pnr ≠ generate_pnr draws := by
                intro b hb heq
                exact hpn (List.any_eq_true.mpr ⟨b, hb, beq_iff_eq.mpr heq⟩)
              refine ⟨rfl, hfresh, ⟨_, rfl, rfl⟩, ?_⟩
              intro hnd
              rw [List.map_append, List.nodup_append]
              refine ⟨hnd, List.nodup_singleton _, ?_⟩
              intro a ha hb
              simp only [List.map_cons, List.map_nil, List.mem_singleton] at hb
              obtain ⟨b, hbm, hbp⟩ := List.mem_map.mp ha
              exact hfresh b hbm (hbp.trans hb)
      · rw [if_neg hbus] at h
        exact Except.noConfusion h

/-- C8 witness: the amended theorem applied to the concrete first booking:
its stored PNR is the drawn code and no previously stored booking has it. -/
theorem C8_pnr_amended_witness :
    "WLAAAAAAAA" = generate_pnr drawsA ∧
    (∀ b ∈ dbBase.bookings, b.pnr ≠ "WLAAAAAAAA") := by
  have hok : create_bus_booking dbBase 1 ⟨1, 0, [⟨1, "A"⟩]⟩ drawsA "T1" =
      .ok (db8res, 1, "WLAAAAAAAA") := by
    norm_num [create_bus_booking, dbBase, db8res, schedA, findSchedule,
      findSeat, computeTotal, generate_pnr, drawsA, addPassengers, bookSeat,
      findAvail, replaceFirstAvail]
    rfl
  have h := C8_pnr_amended dbBase 1 ⟨1, 0, [⟨1, "A"⟩]⟩ drawsA "T1" db8res 1
    "WLAAAAAAAA" hok
  exact ⟨h.1, h.2.1⟩

theorem computeTotal_error_shape (seats : List BusSeat) (basePrice : ℚ)
    (ps : List PassengerReq) (e : BookError)
    (h : computeTotal seats basePrice ps = .error e) :
    ∃ s, e = .invalidSeat s := by
  induction ps with
  | nil =>
      unfold computeTotal at h
      exact Except.noConfusion h
  | cons p rest ih =>
      unfold computeTotal at h
      cases hf : findSeat seats p.seatId with
      | none =>
          simp only [hf, Except.error.injEq] at h
          exact ⟨p.seatId, h.symm⟩
      | some seat =>
          simp only [hf] at h
          cases ht : computeTotal seats basePrice rest with
          | error e2 =>
              simp only [ht, Except.error.injEq] at h
              subst h
              exact ih ht
          | ok t =>
              simp only [ht] at h
              exact Except.noConfusion h

theorem computeTotal_invalid_iff (seats : List BusSeat) (basePrice : ℚ)
    (ps : List PassengerReq) :
    (∃ s, computeTotal seats basePrice ps = .error (.invalidSeat s)) ↔
      ∃ p ∈ ps, findSeat seats p.seatId = none := by
  induction ps with
  | nil =>
      constructor
      · rintro ⟨s, hs⟩
        unfold computeTotal at hs
        exact Except.noConfusion hs
      · rintro ⟨p, hp, -⟩
        simp at hp
  | cons p rest ih =>
      constructor
      · rintro ⟨s, hs⟩
        unfold computeTotal at hs
        cases hf : findSeat seats p.seatId with
        | none =>
            exact ⟨p, List.mem_cons_self p rest, hf⟩
        | some seat =>
            simp only [hf] at hs
            cases ht : computeTotal seats basePrice rest with
            | error e2 =>
                simp only [ht, Except.error.injEq] at hs
                obtain ⟨q, hq, hqn⟩ := ih.mp ⟨s, by rw [ht, hs]⟩
                exact ⟨q, List.mem_cons_of_mem p hq, hqn⟩
            | ok t =>
                simp only [ht] at hs
                exact Except.noConfusion hs
      · rintro ⟨q, hq, hqn⟩
        unfold computeTotal
        cases hf : findSeat seats p.seatId with
        | none =>
            exact ⟨p.seatId, rfl⟩
        | some seat =>
            rcases List.mem_cons.mp hq with rfl | hq2
            · rw [hf] at hqn
              exact Option.noConfusion hqn
            · obtain ⟨s, hs⟩ := ih.mpr ⟨q, hq2, hqn⟩
              refine ⟨s, ?_⟩
              simp only [hs]

/-- C9 (amended): with the schedule and its bus present, createBooking is
rejected (with the seat-id error, before any state is written) iff some
referenced seat id does not exist in the seat catalog at all — existence is
checked globally, not against the schedule's bus; empty passenger lists and
duplicate seats in one request are accepted, unlike the claim states. -/
theorem C9_validation_amended (db : DB) (uid : Nat) (req : BookingRequest)
    (draws : List Char) (txn : String) (schedule : BusSchedule)
    (hs : findSchedule db.schedules req.scheduleId = some schedule)
    (hbus : schedule.busId ∈ db.buses) :
    (∃ s, create_bus_booking db uid req draws txn =
      .error (.invalidSeat s)) ↔
      ∃ p ∈ req.passengers, findSeat db.seats p.seatId = none := by
  unfold create_bus_booking
  simp only [hs]
  rw [if_pos hbus]
  cases ht : computeTotal db.seats schedule.basePrice req.passengers with
  | error e =>
      obtain ⟨s0, rfl⟩ := computeTotal_error_shape db.seats schedule.basePrice
        req.passengers e ht
      constructor
      · intro _
        exact (computeTotal_invalid_iff db.seats schedule.basePrice
          req.passengers).mp ⟨s0, ht⟩
      · intro _
        exact ⟨s0, rfl⟩
  | ok t =>
      have hno : ¬ ∃ p ∈ req.passengers, findSeat db.seats p.seatId = none := by
        intro hcon
        obtain ⟨s1, hs1⟩ := (computeTotal_invalid_iff db.seats
          schedule.basePrice req.passengers).mpr hcon
        rw [ht] at hs1
        exact Except.noConfusion hs1
      constructor
      · rintro ⟨s2, hs2⟩
        by_cases hpn : db.bookings.any
            (fun b => b.pnr == generate_pnr draws) = true
        · simp only [if_pos hpn] at hs2
          simp at hs2
        · simp only [if_neg hpn] at hs2
          exact Except.noConfusion hs2
      · intro hcon
        exact absurd hcon hno

/-- C9 witness: the amended theorem applied to a request referencing the
nonexistent seat 99, which createBooking rejects with the seat-id error. -/
theorem C9_validation_amended_witness :
    ∃ p ∈ [(⟨99, "X"⟩ : PassengerReq)], findSeat dbBase.seats p.seatId = none := by
  have hiff := C9_validation_amended dbBase 1 ⟨1, 0, [⟨99, "X"⟩]⟩ drawsA "T1"
    schedA rfl (by decide)
  refine hiff.mp ⟨99, ?_⟩
  norm_num [create_bus_booking, dbBase, schedA, findSchedule, findSeat,
    computeTotal]

theorem deleteAvailOnce_sublist (bid seat : Nat) (l : List AvailRecord) :
    (deleteAvailOnce bid seat l).Sublist l := by
  induction l with
  | nil => simp [deleteAvailOnce]
  | cons x rest ih =>
      unfold deleteAvailOnce
      by_cases hx : x.bookingId = some bid ∧ x.seatId = seat
      · rw [if_pos hx]
        exact List.sublist_cons_self x rest
      · rw [if_neg hx]
        exact List.Sublist.cons₂ x ih

theorem releaseSeats_sublist (bid : Nat) (ps : List BusPassenger) :
    ∀ avail : List AvailRecord, (releaseSeats bid ps avail).Sublist avail := by
  induction ps with
  | nil =>
      intro avail
      exact List.Sublist.refl avail
  | cons q rest ih =>
      intro avail
      exact (ih (deleteAvailOnce bid q.seatId avail)).trans
        (deleteAvailOnce_sublist bid q.seatId avail)

theorem findAvail_eq_none_iff (l : List AvailRecord) (sid seat : Nat) (jd : ℚ) :
    findAvail l sid seat jd = none ↔
      ∀ r ∈ l, ¬ (r.scheduleId = sid ∧ r.seatId = seat ∧ r.journeyDate = jd) := by
  induction l with
  | nil => simp [findAvail]
  | cons x rest ih =>
      unfold findAvail
      by_cases hx : x.scheduleId = sid ∧ x.seatId = seat ∧ x.journeyDate = jd
      · rw [if_pos hx]
        simp only [List.mem_cons]
        constructor
        · intro hcon
          exact Option.noConfusion hcon
        · intro hall
          exact absurd hx (hall x (Or.inl rfl))
      · rw [if_neg hx, ih]
        constructor
        · intro h r hr
          rcases List.mem_cons.mp hr with rfl | hr2
          · exact hx
          · exact h r hr2
        · intro h r hr
          exact h r (List.mem_cons_of_mem x hr)

theorem findAvail_none_of_sublist (l1 l2 : List AvailRecord) (sid seat : Nat)
    (jd : ℚ) (hsub : l2.Sublist l1) (h : findAvail l1 sid seat jd = none) :
    findAvail l2 sid seat jd = none := by
  rw [findAvail_eq_none_iff] at h ⊢
  intro r hr
  exact h r (hsub.subset hr)

theorem deleteAvailOnce_removes (bid seat sid : Nat) (jd : ℚ) :
    ∀ l : List AvailRecord, avKeysUnique l →
      (∀ r ∈ l, r.bookingId = some bid →
        r.scheduleId = sid ∧ r.journeyDate = jd) →
      ∀ r0 : AvailRecord, findAvail l sid seat jd = some r0 →
        r0.bookingId = some bid →
      findAvail (deleteAvailOnce bid seat l) sid seat jd = none := by
  intro l
  induction l with
  | nil =>
      intro _ _ r0 hf _
      simp [findAvail] at hf
  | cons x rest ih =>
      intro huniq hown r0 hf hb0
      have hx_rest := (List.pairwise_cons.mp huniq).1
      have hu_rest : avKeysUnique rest := (List.pairwise_cons.mp huniq).2
      have hown_rest : ∀ r ∈ rest, r.bookingId = some bid →
          r.scheduleId = sid ∧ r.journeyDate = jd :=
        fun r hr => hown r (List.mem_cons_of_mem x hr)
      unfold deleteAvailOnce
      by_cases hdel : x.bookingId = some bid ∧ x.seatId = seat
      · rw [if_pos hdel]
        have hxk := hown x (List.mem_cons_self x rest) hdel.1
        rw [findAvail_eq_none_iff]
        intro r hr hkey
        exact hx_rest r hr ⟨hxk.1.trans hkey.1.symm, hdel.2.trans hkey.2.1.symm,
          hxk.2.trans hkey.2.2.symm⟩
      · rw [if_neg hdel]
        by_cases hxkey : x.scheduleId = sid ∧ x.seatId = seat ∧
            x.journeyDate = jd
        · exfalso
          unfold findAvail at hf
          rw [if_pos hxkey] at hf
          simp only [Option.some.injEq] at hf
          subst hf
          exact hdel ⟨hb0, hxkey.2.1⟩
        · unfold findAvail at hf
          rw [if_neg hxkey] at hf
          unfold findAvail
          rw [if_neg hxkey]
          exact ih hu_rest hown_rest r0 hf hb0

theorem findAvail_deleteAvailOnce_ne (bid dseat sid seat : Nat) (jd : ℚ)
    (hne : dseat ≠ seat) :
    ∀ l : List AvailRecord,
      findAvail (deleteAvailOnce bid dseat l) sid seat jd =
        findAvail l sid seat jd := by
  intro l
  induction l with
  | nil => rfl
  | cons x rest ih =>
      unfold deleteAvailOnce
      by_cases hdel : x.bookingId = some bid ∧ x.seatId = dseat
      · rw [if_pos hdel]
        have hxkey : ¬ (x.scheduleId = sid ∧ x.seatId = seat ∧
            x.journeyDate = jd) := by
          intro hc
          exact hne (hdel.2.symm.trans hc.2.1)
        conv_rhs => rw [findAvail]
        rw [if_neg hxkey]
      · rw [if_neg hdel]
        unfold findAvail
        by_cases hxkey : x.scheduleId = sid ∧ x.seatId = seat ∧
            x.journeyDate = jd
        · rw [if_pos hxkey, if_pos hxkey]
        · rw [if_neg hxkey, if_neg hxkey]
          exact ih

theorem replaceFirstBooking_mem (bid uid : Nat) (newB : BusBooking) :
    ∀ l : List BusBooking, (∃ b ∈ l, b.id = bid ∧ b.userId = uid) →
      newB ∈ replaceFirstBooking l bid uid newB := by
  intro l
  induction l with
  | nil =>
      rintro ⟨b, hb, -⟩
      simp at hb
  | cons x rest ih =>
      rintro ⟨b, hb, hbp⟩
      unfold replaceFirstBooking
      by_cases hx : x.id = bid ∧ x.userId = uid
      · rw [if_pos hx]
        exact List.mem_cons_self _ _
      · rw [if_neg hx]
        rcases List.mem_cons.mp hb with rfl | hb2
        · exact absurd hbp hx
        · exact List.mem_cons_of_mem x (ih ⟨b, hb2, hbp⟩)

theorem releaseSeats_removes (bid sid : Nat) (jd : ℚ) :
    ∀ (ps : List BusPassenger) (avail : List AvailRecord),
      avKeysUnique avail →
      (∀ r ∈ avail, r.bookingId = some bid →
        r.scheduleId = sid ∧ r.journeyDate = jd) →
      ∀ s : Nat, (∃ p ∈ ps, p.seatId = s) →
        (∃ r, findAvail avail sid s jd = some r ∧ r.bookingId = some bid) →
        findAvail (releaseSeats bid ps avail) sid s jd = none := by
  intro ps
  induction ps with
  | nil =>
      rintro avail _ _ s ⟨p, hp, -⟩ _
      simp at hp
  | cons q rest ih =>
      rintro avail huniq hown s hs ⟨r0, hf, hb0⟩
      have hsub := deleteAvailOnce_sublist bid q.seatId avail
      have huniq1 : avKeysUnique (deleteAvailOnce bid q.seatId avail) :=
        List.Pairwise.sublist hsub huniq
      have hown1 : ∀ r ∈ deleteAvailOnce bid q.seatId avail,
          r.bookingId = some bid → r.scheduleId = sid ∧ r.journeyDate = jd :=
        fun r hr hb => hown r (hsub.subset hr) hb
      by_cases hqs : q.seatId = s
      · have hnone : findAvail (deleteAvailOnce bid q.seatId avail) sid s jd =
            none := by
          rw [hqs]
          exact deleteAvailOnce_removes bid s sid jd avail huniq hown r0 hf hb0
        exact findAvail_none_of_sublist _ _ sid s jd
          (releaseSeats_sublist bid rest _) hnone
      · have hf1 : findAvail (deleteAvailOnce bid q.seatId avail) sid s jd =
            findAvail avail sid s jd :=
          findAvail_deleteAvailOnce_ne bid q.seatId sid s jd hqs avail
        obtain ⟨p, hp, hps⟩ := hs
        rcases List.mem_cons.mp hp with rfl | hp2
        · exact absurd hps hqs
        · exact ih _ huniq1 hown1 s ⟨p, hp2, hps⟩ ⟨r0, hf1.trans hf, hb0⟩

theorem lock_seats_ok_of_no_record (db2 : DB) (uid2 sid2 s : Nat)
    (jd2 now2 : ℚ) (hnone : findAvail db2.avail sid2 s jd2 = none) :
    ∃ dbL ls exp, lock_seats db2 uid2 ⟨sid2, jd2, [s]⟩ now2 =
      .ok (dbL, ls, exp) := by
  cases hGo : lockSeatsGo sid2 jd2 uid2 (now2 + LOCK_TTL) now2 db2.avail [s] with
  | error e =>
      exfalso
      obtain ⟨s1, hs1, hc1⟩ := (lockSeatsGo_error_iff sid2 jd2 uid2
        (now2 + LOCK_TTL) now2 [s] db2.avail).mp ⟨e, hGo⟩
      rw [List.mem_singleton] at hs1
      subst hs1
      unfold lockConflict at hc1
      simp only [hnone] at hc1
  | ok availF =>
      have hres : lock_seats db2 uid2 ⟨sid2, jd2, [s]⟩ now2 =
          .ok ({ db2 with avail := availF }, [s], now2 + LOCK_TTL) := by
        simp only [lock_seats]
        rw [hGo]
      exact ⟨_, _, _, hres⟩

/-- C7 (amended): on every successful cancellation the booking row is
stored cancelled with cancelledAt = now, the computed refundAmount, and
refundStatus `processed` iff the amount is positive; and — provided the
ledger's key-uniqueness invariant holds and every row carrying this
booking's id belongs to its schedule instance — every passenger seat whose
availability row still references this booking has that row deleted, so the
seat-map status computation reports it `available` at any later read and a
fresh lock request for it succeeds. A seat whose row was overwritten by
another booking (possible because createBooking never re-validates) is not
released, which is what the counterexample exhibits and why the claim is
amended with the row-ownership condition. -/
theorem C7_cancel_amended (db : DB) (uid bid : Nat) (now : ℚ) (dbNext : DB)
    (pct amt : ℚ) (rs : RefundStatus) (bk : BusBooking)
    (hb : db.bookings.find? (fun b => b.id == bid && b.userId == uid) = some bk)
    (huniq : avKeysUnique db.avail)
    (hown : ∀ r ∈ db.avail, r.bookingId = some bk.id →
      r.scheduleId = bk.scheduleId ∧ r.journeyDate = bk.journeyDate)
    (h : cancel_bus_booking db uid bid now = .ok (dbNext, pct, amt, rs)) :
    ({ bk with bookingStatus := .cancelled, cancelledAt := some now,
               refundAmount := some amt, refundStatus := some rs }
      ∈ dbNext.bookings) ∧
    rs = (if amt > 0 then RefundStatus.processed else RefundStatus.noRefund) ∧
    (∀ p ∈ db.passengers, p.bookingId = bk.id →
      (∃ r, findAvail db.avail bk.scheduleId p.seatId bk.journeyDate = some r ∧
        r.bookingId = some bk.id) →
      findAvail dbNext.avail bk.scheduleId p.seatId bk.journeyDate = none ∧
      (∀ now2, seatStatus (findAvail dbNext.avail bk.scheduleId p.seatId
        bk.journeyDate) now2 = .available) ∧
      (∀ uid2 now2, ∃ dbL ls exp,
        lock_seats dbNext uid2 ⟨bk.scheduleId, bk.journeyDate, [p.seatId]⟩
          now2 = .ok (dbL, ls, exp))) := by
  unfold cancel_bus_booking at h
  simp only [hb] at h
  by_cases hc : bk.bookingStatus = BookingStatus.cancelled
  · rw [if_pos hc] at h
    exact Except.noConfusion h
  rw [if_neg hc] at h
  by_cases hcp : bk.bookingStatus = BookingStatus.completed
  · rw [if_pos hcp] at h
    exact Except.noConfusion h
  rw [if_neg hcp] at h
  cases hsch : findSchedule db.schedules bk.scheduleId with
  | none =>
      simp only [hsch] at h
      exact Except.noConfusion h
  | some schedule =>
      simp only [hsch, Except.ok.injEq, Prod.mk.injEq] at h
      obtain ⟨h1, h2, h3, h4⟩ := h
      subst h2
      subst h3
      subst h4
      have hpred := List.find?_some hb
      simp only [Bool.and_eq_true, beq_iff_eq] at hpred
      refine ⟨?_, rfl, ?_⟩
      · rw [← h1]
        exact replaceFirstBooking_mem bid uid _ db.bookings
          ⟨bk, List.mem_of_find?_eq_some hb, hpred⟩
      · intro p hp hpb hrec
        have hmem : p ∈ db.passengers.filter
            (fun p2 => p2.bookingId == bk.id) :=
          List.mem_filter.mpr ⟨hp, by simp [hpb]⟩
        have hnoneR : findAvail (releaseSeats bk.id
            (db.passengers.filter (fun p2 => p2.bookingId == bk.id)) db.avail)
            bk.scheduleId p.seatId bk.journeyDate = none :=
          releaseSeats_removes bk.id bk.scheduleId bk.journeyDate _ db.avail
            huniq hown p.seatId ⟨p, hmem, rfl⟩ hrec
        have hnone2 : findAvail dbNext.avail bk.scheduleId p.seatId
            bk.journeyDate = none := by
          rw [← h1]
          exact hnoneR
        refine ⟨hnone2, ?_, ?_⟩
        · intro now2
          rw [hnone2]
          rfl
        · intro uid2 now2
          exact lock_seats_ok_of_no_record dbNext uid2 bk.scheduleId p.seatId
            bk.journeyDate now2 hnone2

/-- C7 witness: cancelling the two-seat booking of the fixture deletes both
seat rows; seat 1 is reported available at any later read and a fresh lock
for it by another user succeeds. -/
theorem C7_cancel_amended_witness :
    findAvail dbW7res.avail 1 1 0 = none ∧
    (∀ now2, seatStatus (findAvail dbW7res.avail 1 1 0) now2 = .available) ∧
    (∃ dbL ls exp, lock_seats dbW7res 2 ⟨1, 0, [1]⟩ 40000 =
      .ok (dbL, ls, exp)) := by
  have hok : cancel_bus_booking dbW7 1 1 36000 =
      .ok (dbW7res, 0, 0, .noRefund) := by
    norm_num [cancel_bus_booking, dbW7, dbW7res, dbBase, schedA, bkW7,
      findSchedule, refundPercentage, releaseSeats, deleteAvailOnce,
      replaceFirstBooking]
    rfl
  have h := C7_cancel_amended dbW7 1 1 36000 dbW7res 0 0 .noRefund bkW7
    rfl
    (by simp [avKeysUnique, dbW7, dbBase, List.pairwise_cons])
    (by decide)
    hok
  have h3 := h.2.2 ⟨1, 1, "A", 500⟩ (by norm_num [dbW7, dbBase]) rfl
    ⟨⟨1, 1, 0, .booked, none, none, some 1⟩, rfl, rfl⟩
  exact ⟨h3.1, h3.2.1, h3.2.2 2 40000⟩

end Wanderlite
